import Mathlib

/-!
Shallow embedding of the task-tracking service in `src/main.py`
(FastAPI TODO app with a websocket `ConnectionManager`, CRUD endpoints
and the `periodic_task` ingestion loop), together with theorems settling
the specification claims about it.

Python strings are modelled as `List Char` (so Python slicing `s[:n]`
is `List.take n`), the SQLite task table as a list of rows plus an
autoincrement counter and a logical clock for `created_at`, and each
endpoint as a pure function from application state to a result, a new
state and a trace of its commit/broadcast actions in program order.
-/

/-- Python text values (`str`); slicing `s[:n]` is `List.take n`. -/
abbrev Str := List Char

/-- A row of the `tasks` table (`TaskModel` in `src/main.py`). -/
structure TaskModel where
  id : Nat
  title : Str
  description : Str
  done : Bool
  created_at : Nat
deriving DecidableEq, Repr

/-- The persisted task store: committed rows, the autoincrement counter
for `id`, and a logical clock supplying `created_at` values. -/
structure Store where
  tasks : List TaskModel
  nextId : Nat
  clock : Nat
deriving DecidableEq, Repr

/-- The JSON payload placed in the `task` field of a pushed message:
mutations and single-task reads send `{title, description, id, done}`,
delete sends `{id, title}`, and the list endpoint sends a JSON array. -/
inductive Payload where
  | taskInfo (title description : Str) (id : Nat) (done : Bool)
  | deleteInfo (id : Nat) (title : Str)
  | taskList (items : List (Str × Str × Nat × Bool))
deriving DecidableEq, Repr

/-- The message built by `ConnectionManager.send_task_update`:
`{"type": "log", "action": action, "task": task_data}`. -/
structure Message where
  type : String
  action : String
  task : Payload
deriving DecidableEq, Repr

/-- Helper building the message that `send_task_update` sends. -/
def mkMessage (action : String) (pay : Payload) : Message :=
  { type := "log", action := action, task := pay }

/-- Whole-application state: the store, the registered websocket
connections (identified by numeric handles) and the log of per-connection
deliveries performed so far. -/
structure AppState where
  store : Store
  conns : List Nat
  log : List (Nat × Message)
deriving DecidableEq, Repr

/-- Actions an endpoint performs, in program order: a store commit
(which may fail) and a broadcast of a message. -/
inductive Act where
  | commit (ok : Bool)
  | broadcast (m : Message)
deriving DecidableEq, Repr

/-- Model of `manager.send_task_update` in the run where every `send_json`
succeeds: the message is delivered to every registered connection. -/
def broadcastAll (msg : Message) (st : AppState) : AppState :=
  { st with log := st.log ++ st.conns.map (fun c => (c, msg)) }

/-- Errors surfaced to the HTTP caller: 404 (`HTTPException(404)`),
a failed store commit, and the spec's `ValidationError` (HTTP 400),
which the code never raises. -/
inductive ApiError where
  | notFound
  | commitFailure
  | validationError
deriving DecidableEq, Repr

/-- Body of `POST /tasks` (`TaskCreate`). -/
structure TaskCreate where
  title : Str
  description : Str
deriving DecidableEq, Repr

/-- Body of `PATCH /tasks/{id}` (`TaskUpdate`): all three fields
optional; `none` models a field absent from the request. -/
structure TaskUpdate where
  title : Option Str
  description : Option Str
  done : Option Bool
deriving DecidableEq, Repr

/-- Semantics of `for field, value in updated.dict(exclude_unset=True).items():
setattr(task, field, value)` — supplied fields overwrite, absent fields
are left alone; `id` and `created_at` are not settable fields. -/
def applyUpdate (u : TaskUpdate) (t : TaskModel) : TaskModel :=
  { t with
    title := u.title.getD t.title
    description := u.description.getD t.description
    done := u.done.getD t.done }

/-- Lookup `db.get(TaskModel, task_id)`: primary-key access. -/
def Store.getTask (s : Store) (id : Nat) : Option TaskModel :=
  s.tasks.find? (fun t => t.id == id)

/-- Endpoint `POST /tasks` (`create_task`): build the row from the request body
verbatim, commit, then broadcast `created`; a failed commit aborts with
no broadcast and the pending row discarded. -/
def create_task (tc : TaskCreate) (commitOk : Bool) (st : AppState) :
    Except ApiError TaskModel × AppState × List Act :=
  let new_task : TaskModel :=
    { id := st.store.nextId, title := tc.title, description := tc.description,
      done := false, created_at := st.store.clock }
  if commitOk then
    let st1 : AppState :=
      { st with store := { tasks := st.store.tasks ++ [new_task],
                           nextId := st.store.nextId + 1,
                           clock := st.store.clock + 1 } }
    let msg := mkMessage "created"
      (.taskInfo new_task.title new_task.description new_task.id new_task.done)
    (.ok new_task, broadcastAll msg st1, [.commit true, .broadcast msg])
  else
    (.error .commitFailure, st, [.commit false])

/-- Endpoint `GET /tasks/{id}` (`get_task`): 404 when absent; on success the
read also broadcasts, with action `get_task`. -/
def get_task (id : Nat) (st : AppState) :
    Except ApiError TaskModel × AppState × List Act :=
  match st.store.getTask id with
  | none => (.error .notFound, st, [])
  | some task =>
    let msg := mkMessage "get_task"
      (.taskInfo task.title task.description task.id task.done)
    (.ok task, broadcastAll msg st, [.broadcast msg])

/-- Endpoint `GET /tasks` (`get_tasks`): rows ordered by `created_at` descending,
broadcast with action `"get tasks"` carrying the JSON array. -/
def get_tasks (st : AppState) :
    List TaskModel × AppState × List Act :=
  let tasks := st.store.tasks.mergeSort (fun a b => decide (b.created_at ≤ a.created_at))
  let msg := mkMessage "get tasks"
    (.taskList (tasks.map (fun t => (t.title, t.description, t.id, t.done))))
  (tasks, broadcastAll msg st, [.broadcast msg])

/-- Endpoint `PATCH /tasks/{id}` (`update_task`): 404 when absent; otherwise the
supplied fields are applied (no emptiness check), the row committed,
then an `updated` broadcast; a failed commit aborts with no broadcast. -/
def update_task (id : Nat) (updated : TaskUpdate) (commitOk : Bool) (st : AppState) :
    Except ApiError TaskModel × AppState × List Act :=
  match st.store.getTask id with
  | none => (.error .notFound, st, [])
  | some task =>
    let task' := applyUpdate updated task
    if commitOk then
      let st1 : AppState :=
        { st with store := { st.store with
            tasks := st.store.tasks.map (fun x => if x.id == id then task' else x) } }
      let msg := mkMessage "updated"
        (.taskInfo task'.title task'.description task'.id task'.done)
      (.ok task', broadcastAll msg st1, [.commit true, .broadcast msg])
    else
      (.error .commitFailure, st, [.commit false])

/-- Endpoint `DELETE /tasks/{id}` (`delete_task`): 404 when absent; `task_data`
(`{id, title}`) is captured before deletion, the deletion committed,
then a `deleted` broadcast; a failed commit aborts with no broadcast. -/
def delete_task (id : Nat) (commitOk : Bool) (st : AppState) :
    Except ApiError Unit × AppState × List Act :=
  match st.store.getTask id with
  | none => (.error .notFound, st, [])
  | some task =>
    let task_data : Payload := .deleteInfo task.id task.title
    if commitOk then
      let st1 : AppState :=
        { st with store := { st.store with
            tasks := st.store.tasks.filter (fun x => !(x.id == id)) } }
      let msg := mkMessage "deleted" task_data
      (.ok (), broadcastAll msg st1, [.commit true, .broadcast msg])
    else
      (.error .commitFailure, st, [.commit false])

/-- Ingestion-side create `add_external_task`: title and
description are truncated (`title[:100]`, `desc[:500]`) before the row
is built, then commit, then a `created` broadcast. -/
def add_external_task (title desc : Str) (commitOk : Bool) (st : AppState) :
    Except ApiError TaskModel × AppState × List Act :=
  let task : TaskModel :=
    { id := st.store.nextId, title := title.take 100, description := desc.take 500,
      done := false, created_at := st.store.clock }
  if commitOk then
    let st1 : AppState :=
      { st with store := { tasks := st.store.tasks ++ [task],
                           nextId := st.store.nextId + 1,
                           clock := st.store.clock + 1 } }
    let msg := mkMessage "created"
      (.taskInfo task.title task.description task.id task.done)
    (.ok task, broadcastAll msg st1, [.commit true, .broadcast msg])
  else
    (.error .commitFailure, st, [.commit false])

/-- One ingestion cycle body over fetched posts: for each record,
`add_external_task(p.title[:50], p.body[:150], s)`, sequentially, with
every commit succeeding. -/
def runIngestionCycle (posts : List (Str × Str)) (st : AppState) : AppState :=
  posts.foldl (fun s p => (add_external_task (p.1.take 50) (p.2.take 150) true s).2.1) st

/-- The loop `periodic_task`, run against a script of cycle outcomes (one entry
per interval: the fetch either raises or returns the posts). The loop
body has no exception handler, so a raising cycle ends the coroutine:
later cycles never run. Returns the final state and whether the loop is
still alive. -/
def periodic_task_run (st : AppState) :
    List (Except Unit (List (Str × Str))) → AppState × Bool
  | [] => (st, true)
  | .error _ :: _ => (st, false)
  | .ok posts :: rest => periodic_task_run (runIngestionCycle posts st) rest

/-!
Failure-mode model of `ConnectionManager.send_task_update`. The method
iterates the live `active_connections` list and awaits `send_json` on
each member with no exception handler, so the first failing send stops
the loop and the exception propagates to the method's caller; the
method itself never touches `active_connections`. `sendOk c = false`
models `send_json` raising on connection `c`.
-/

/-- The `for connection in self.active_connections: await
connection.send_json(message)` loop: deliveries performed in order up to
the first failure, and the failing connection if any (the raised
exception). -/
def sendLoop (sendOk : Nat → Bool) (msg : Message) :
    List Nat → List (Nat × Message) × Option Nat
  | [] => ([], none)
  | c :: rest =>
    if sendOk c then
      let r := sendLoop sendOk msg rest
      ((c, msg) :: r.1, r.2)
    else ([], some c)

/-- Model of `send_task_update` over a manager whose active list is `active`:
builds the message, runs the send loop, and leaves the active list as it
found it (the method contains no `disconnect` call). Returns
(deliveries, raised exception, active list afterwards). -/
def send_task_update (sendOk : Nat → Bool) (action : String) (pay : Payload)
    (active : List Nat) : List (Nat × Message) × Option Nat × List Nat :=
  let r := sendLoop sendOk (mkMessage action pay) active
  (r.1, r.2, active)

/-!
Interleaving model of the `ConnectionManager` registry for the
concurrency claim. The app runs on a single asyncio event loop, so
steps between `await` points are atomic; a broadcast suspends at each
`send_json`, so its iteration interleaves with `connect` / `disconnect`
calls from other coroutines. A broadcast in flight is a pair (event id,
next iteration index) over the live list, exactly as a Python `for`
loop over a list it does not copy.
-/

/-- One atomic step of some coroutine touching the manager. -/
inductive RegOp where
  | register (c : Nat)
  | disconnect (c : Nat)
  | bstart (e : Nat)
  | bstep (j : Nat)
deriving DecidableEq, Repr

/-- Registry state: the live `active_connections` list, the in-flight
broadcasts (event id, current index), and completed deliveries. -/
structure RegState where
  active : List Nat
  pending : List (Nat × Nat)
  delivered : List (Nat × Nat)
deriving DecidableEq, Repr

/-- Execute one atomic step: `register` is `active_connections.append`;
`disconnect` is the guarded `list.remove` (no-op when absent); `bstart`
begins a broadcast of event `e` at index 0; `bstep j` advances the
`j`-th in-flight broadcast: it sends to the element at its current index
of the *live* list, or finishes when the index has run off the end. -/
def regExec (s : RegState) : RegOp → RegState
  | .register c => { s with active := s.active ++ [c] }
  | .disconnect c => { s with active := s.active.erase c }
  | .bstart e => { s with pending := s.pending ++ [(e, 0)] }
  | .bstep j =>
    match s.pending[j]? with
    | none => s
    | some (e, i) =>
      match s.active[i]? with
      | none => { s with pending := s.pending.eraseIdx j }
      | some c => { s with delivered := s.delivered ++ [(c, e)],
                           pending := s.pending.set j (e, i + 1) }

/-- Run a whole interleaving. -/
def regRun (s : RegState) (ops : List RegOp) : RegState :=
  ops.foldl regExec s

/-- The active list as determined by the register/disconnect history
alone, ignoring broadcast steps. -/
def activeOf (init : List Nat) : List RegOp → List Nat
  | [] => init
  | .register c :: rest => activeOf (init ++ [c]) rest
  | .disconnect c :: rest => activeOf (init.erase c) rest
  | .bstart _ :: rest => activeOf init rest
  | .bstep _ :: rest => activeOf init rest

/-!
Expected results of one ingestion cycle, for comparison with
`runIngestionCycle`: record `(title, body)` becomes a row with
`title[:50]` and `body[:150]` (the further `[:100]` / `[:500]` in
`add_external_task` are no-ops on already-shorter text), consecutive
ids and timestamps, and one `created` broadcast per record.
-/

/-- The `created` message broadcast for one ingested record. -/
def ingestedMsg (p : Str × Str) (nid : Nat) : Message :=
  mkMessage "created" (.taskInfo (p.1.take 50) (p.2.take 150) nid false)

/-- Rows appended by one cycle, starting from counter `nid`, clock `ck`. -/
def ingestedTasks (nid ck : Nat) : List (Str × Str) → List TaskModel
  | [] => []
  | p :: rest =>
    { id := nid, title := p.1.take 50, description := p.2.take 150,
      done := false, created_at := ck } :: ingestedTasks (nid + 1) (ck + 1) rest

/-- Deliveries appended by one cycle: for each record in order, its
`created` message to every registered connection. -/
def ingestedLog (conns : List Nat) (nid : Nat) : List (Str × Str) → List (Nat × Message)
  | [] => []
  | p :: rest =>
    conns.map (fun c => (c, ingestedMsg p nid)) ++ ingestedLog conns (nid + 1) rest

/-!
Theorems settling the claims.
-/

/-- Characteristic test for broadcast actions. -/
def isBroadcast : Act → Bool
  | .broadcast _ => true
  | .commit _ => false

/-- Number of broadcast events in a trace. -/
def broadcastCount (tr : List Act) : Nat :=
  (tr.filter isBroadcast).length

/-- Every broadcast in the trace is strictly preceded by a successful
commit. -/
def commitBeforeBroadcast (tr : List Act) : Prop :=
  ∀ (i : Nat) (m : Message), tr[i]? = some (Act.broadcast m) →
    ∃ j : Nat, j < i ∧ tr[j]? = some (Act.commit true)

theorem commitBeforeBroadcast_pair (m : Message) :
    commitBeforeBroadcast [Act.commit true, Act.broadcast m] := by
  intro i m' h
  match i with
  | 0 => simp at h
  | 1 => exact ⟨0, by omega, rfl⟩
  | n + 2 => simp at h

theorem commitBeforeBroadcast_fail :
    commitBeforeBroadcast [Act.commit false] := by
  intro i m' h
  match i with
  | 0 => simp at h
  | n + 1 => simp at h

/-- C10: the user-facing create persists the caller's title and
description verbatim — no truncation, no rejection, whatever their
length — while the ingestion-side create truncates the same inputs to
100 and 500 characters. -/
theorem C10_create_exact_no_truncation (tc : TaskCreate) (st : AppState) :
    (create_task tc true st).1
        = .ok { id := st.store.nextId, title := tc.title,
                description := tc.description, done := false,
                created_at := st.store.clock }
  ∧ (create_task tc true st).2.1.store.tasks
        = st.store.tasks
            ++ [{ id := st.store.nextId, title := tc.title,
                  description := tc.description, done := false,
                  created_at := st.store.clock }]
  ∧ (add_external_task tc.title tc.description true st).2.1.store.tasks
        = st.store.tasks
            ++ [{ id := st.store.nextId, title := tc.title.take 100,
                  description := tc.description.take 500, done := false,
                  created_at := st.store.clock }] := by
  refine ⟨rfl, rfl, rfl⟩

/-- C5: a get, update or delete on an id absent from the store fails
with `notFound` (the 404 `HTTPException`), leaves the state untouched
and performs no commit and no broadcast. -/
theorem C5_missing_id_notFound (id : Nat) (upd : TaskUpdate) (cOk cOk2 : Bool)
    (st : AppState) (h : st.store.getTask id = none) :
    get_task id st = (.error .notFound, st, [])
  ∧ update_task id upd cOk st = (.error .notFound, st, [])
  ∧ delete_task id cOk2 st = (.error .notFound, st, []) := by
  refine ⟨?_, ?_, ?_⟩ <;> simp [get_task, update_task, delete_task, h]

theorem C5_missing_id_notFound_witness :
    (⟨⟨[], 1, 0⟩, [4], []⟩ : AppState).store.getTask 9 = none
  ∧ get_task 9 ⟨⟨[], 1, 0⟩, [4], []⟩ = (.error .notFound, ⟨⟨[], 1, 0⟩, [4], []⟩, []) := by
  have h : (⟨⟨[], 1, 0⟩, [4], []⟩ : AppState).store.getTask 9 = none := by decide
  exact ⟨h, (C5_missing_id_notFound 9 ⟨none, none, none⟩ true true _ h).1⟩

/-- Equality of endpoint results is decidable (used to evaluate the
operations at concrete inputs). -/
instance exceptDecEq {ε α : Type} [DecidableEq ε] [DecidableEq α] :
    DecidableEq (Except ε α) := fun x y =>
  match x, y with
  | .ok a, .ok b =>
    if h : a = b then isTrue (by rw [h]) else isFalse (by intro he; cases he; exact h rfl)
  | .error a, .error b =>
    if h : a = b then isTrue (by rw [h]) else isFalse (by intro he; cases he; exact h rfl)
  | .ok _, .error _ => isFalse (by intro he; cases he)
  | .error _, .ok _ => isFalse (by intro he; cases he)

/-- C3 counterexample: `update_task` never checks for an empty payload.
At a store holding task 1, a PATCH supplying zero fields returns the
task with `.ok` (HTTP 200, not 400), emits one `updated` broadcast, and
so the claim's conjunction fails at this input. -/
theorem C3_counterexample :
    (update_task 1 ⟨none, none, none⟩ true
        ⟨⟨[⟨1, ['a'], ['b'], false, 0⟩], 2, 5⟩, [7], []⟩).1
      = .ok ⟨1, ['a'], ['b'], false, 0⟩
  ∧ broadcastCount (update_task 1 ⟨none, none, none⟩ true
        ⟨⟨[⟨1, ['a'], ['b'], false, 0⟩], 2, 5⟩, [7], []⟩).2.2 = 1
  ∧ ¬ ((update_task 1 ⟨none, none, none⟩ true
          ⟨⟨[⟨1, ['a'], ['b'], false, 0⟩], 2, 5⟩, [7], []⟩).1
        = .error .validationError
      ∧ broadcastCount (update_task 1 ⟨none, none, none⟩ true
          ⟨⟨[⟨1, ['a'], ['b'], false, 0⟩], 2, 5⟩, [7], []⟩).2.2 = 0) := by
  decide

/-- C3 as amended: a partial update supplying zero fields on an existing
id (unique in the store) succeeds with the task unchanged, leaves the
store state unchanged, and emits exactly one `updated` broadcast — it is
not rejected with ValidationError. -/
theorem C3_empty_update_succeeds (tid : Nat) (st : AppState) (task : TaskModel)
    (h : st.store.getTask tid = some task)
    (huniq : ∀ x ∈ st.store.tasks, x.id = tid → x = task) :
    update_task tid ⟨none, none, none⟩ true st
      = (.ok task,
         { st with log := st.log ++ st.conns.map (fun c =>
             (c, mkMessage "updated"
                   (.taskInfo task.title task.description task.id task.done))) },
         [.commit true,
          .broadcast (mkMessage "updated"
            (.taskInfo task.title task.description task.id task.done))]) := by
  have happ : applyUpdate ⟨none, none, none⟩ task = task := rfl
  have hmap : st.store.tasks.map (fun x => if x.id = tid then task else x)
      = st.store.tasks := by
    have h1 : st.store.tasks.map (fun x => if x.id = tid then task else x)
        = st.store.tasks.map (fun x => x) := by
      refine List.map_congr_left ?_
      intro x hx
      by_cases hxid : x.id = tid
      · rw [if_pos hxid]
        exact (huniq x hx hxid).symm
      · rw [if_neg hxid]
    rw [h1, List.map_id']
  simp [update_task, h, happ, hmap, broadcastAll]

theorem C3_empty_update_succeeds_witness :
    (update_task 1 ⟨none, none, none⟩ true
        ⟨⟨[⟨1, ['a'], ['b'], false, 0⟩], 2, 5⟩, [7], []⟩).1
      = .ok ⟨1, ['a'], ['b'], false, 0⟩ := by
  rw [C3_empty_update_succeeds 1 _ ⟨1, ['a'], ['b'], false, 0⟩ (by decide) (by decide)]

/-- C4 counterexample: `periodic_task` has no exception handler, so a
cycle whose fetch raises ends the loop: with a script whose first fetch
fails and whose second would return one record, the loop is no longer
alive after the failure and the second cycle never runs (the state is
untouched), contradicting "the loop resumes at the next fixed
interval". -/
theorem C4_counterexample :
    (periodic_task_run ⟨⟨[], 1, 0⟩, [], []⟩
        [.error (), .ok [(['a'], ['b'])]]).2 ≠ true
  ∧ (periodic_task_run ⟨⟨[], 1, 0⟩, [], []⟩
        [.error (), .ok [(['a'], ['b'])]]).1 = ⟨⟨[], 1, 0⟩, [], []⟩ := by
  decide

/-- C4 as amended: the cycles before the first failure run normally;
the first failing fetch (or failing creation within a cycle) propagates
out of `periodic_task` and terminates the loop, so no later cycle is
ever executed. The exception stays inside the background asyncio task,
so it is not fatal to the process. -/
theorem C4_failure_kills_loop (st : AppState) (pre : List (List (Str × Str)))
    (rest : List (Except Unit (List (Str × Str)))) :
    periodic_task_run st (pre.map Except.ok ++ .error () :: rest)
      = (pre.foldl (fun s posts => runIngestionCycle posts s) st, false) := by
  induction pre generalizing st with
  | nil => rfl
  | cons p ps ih => simpa [periodic_task_run] using ih (runIngestionCycle p st)

/-- C2 counterexample: the send loop in `send_task_update` has no
exception handler. With connections `[1, 2]` where the send to 1
raises: connection 2 (present at call start) receives nothing, the
exception propagates to the caller, and connection 1 is not removed
from the active list — each clause of the claim fails. -/
theorem C2_counterexample :
    (send_task_update (fun c => c != 1) "deleted" (.deleteInfo 1 []) [1, 2]).1 = []
  ∧ (send_task_update (fun c => c != 1) "deleted" (.deleteInfo 1 []) [1, 2]).2.1 = some 1
  ∧ (send_task_update (fun c => c != 1) "deleted" (.deleteInfo 1 []) [1, 2]).2.2 = [1, 2]
  ∧ ¬ ((2, mkMessage "deleted" (.deleteInfo 1 []))
          ∈ (send_task_update (fun c => c != 1) "deleted" (.deleteInfo 1 []) [1, 2]).1
      ∧ (send_task_update (fun c => c != 1) "deleted" (.deleteInfo 1 []) [1, 2]).2.1 = none
      ∧ 1 ∉ (send_task_update (fun c => c != 1) "deleted" (.deleteInfo 1 []) [1, 2]).2.2) := by
  decide

theorem sendLoop_fail (sendOk : Nat → Bool) (msg : Message) (c : Nat) (post : List Nat)
    (hc : sendOk c = false) :
    ∀ pre : List Nat, (∀ d ∈ pre, sendOk d = true) →
      sendLoop sendOk msg (pre ++ c :: post) = (pre.map (fun d => (d, msg)), some c) := by
  intro pre
  induction pre with
  | nil => intro _; simp [sendLoop, hc]
  | cons a rest ih =>
    intro hpre
    have ha : sendOk a = true := hpre a (by simp)
    simp [sendLoop, ha, ih (fun d hd => hpre d (by simp [hd]))]

/-- C2 as amended: when the send to connection `c` fails, the
connections before `c` in the active list have already received the
message, the connections after `c` receive nothing, the exception
propagates to the caller of `send_task_update` (so it can surface out of a
mutation whose commit already succeeded), and no connection is removed
by the broadcast itself — removal happens only in the websocket
endpoint's receive loop on disconnect. -/
theorem C2_send_failure_behavior (sendOk : Nat → Bool) (action : String) (pay : Payload)
    (pre post : List Nat) (c : Nat)
    (hpre : ∀ d ∈ pre, sendOk d = true) (hc : sendOk c = false) :
    send_task_update sendOk action pay (pre ++ c :: post)
      = (pre.map (fun d => (d, mkMessage action pay)), some c, pre ++ c :: post) := by
  simp [send_task_update, sendLoop_fail sendOk (mkMessage action pay) c post hc pre hpre]

theorem C2_send_failure_behavior_witness :
    send_task_update (fun c => c != 2) "created" (.taskInfo [] [] 1 false) [1, 2, 3]
      = ([(1, mkMessage "created" (.taskInfo [] [] 1 false))], some 2, [1, 2, 3]) := by
  exact C2_send_failure_behavior (fun c => c != 2) "created" (.taskInfo [] [] 1 false)
    [1] [3] 2 (by decide) (by decide)

/-- C1: for each of the four mutations (create, update, delete,
ingestion create), every broadcast in the execution trace is strictly
preceded by a successful commit, whatever the commit outcome; and when
the commit fails, the operation surfaces `commitFailure` to its caller,
leaves the whole application state unchanged, and its trace carries
zero broadcast events. -/
theorem C1_commit_happens_before_broadcast
    (tc : TaskCreate) (ti de : Str) (uid did : Nat) (upd : TaskUpdate)
    (st : AppState) (utask dtask : TaskModel)
    (hu : st.store.getTask uid = some utask)
    (hd : st.store.getTask did = some dtask) :
    (∀ cOk : Bool, commitBeforeBroadcast (create_task tc cOk st).2.2)
  ∧ (∀ cOk : Bool, commitBeforeBroadcast (add_external_task ti de cOk st).2.2)
  ∧ (∀ cOk : Bool, commitBeforeBroadcast (update_task uid upd cOk st).2.2)
  ∧ (∀ cOk : Bool, commitBeforeBroadcast (delete_task did cOk st).2.2)
  ∧ create_task tc false st = (.error .commitFailure, st, [.commit false])
  ∧ add_external_task ti de false st = (.error .commitFailure, st, [.commit false])
  ∧ update_task uid upd false st = (.error .commitFailure, st, [.commit false])
  ∧ delete_task did false st = (.error .commitFailure, st, [.commit false])
  ∧ broadcastCount [Act.commit false] = 0 := by
  have hufalse : update_task uid upd false st = (.error .commitFailure, st, [.commit false]) := by
    simp [update_task, hu]
  have hdfalse : delete_task did false st = (.error .commitFailure, st, [.commit false]) := by
    simp [delete_task, hd]
  refine ⟨?_, ?_, ?_, ?_, rfl, rfl, hufalse, hdfalse, rfl⟩
  · intro cOk
    cases cOk
    · exact commitBeforeBroadcast_fail
    · exact commitBeforeBroadcast_pair _
  · intro cOk
    cases cOk
    · exact commitBeforeBroadcast_fail
    · exact commitBeforeBroadcast_pair _
  · intro cOk
    cases cOk
    · rw [hufalse]
      exact commitBeforeBroadcast_fail
    · simp only [update_task, hu]
      exact commitBeforeBroadcast_pair _
  · intro cOk
    cases cOk
    · rw [hdfalse]
      exact commitBeforeBroadcast_fail
    · simp only [delete_task, hd]
      exact commitBeforeBroadcast_pair _

theorem C1_commit_happens_before_broadcast_witness :
    commitBeforeBroadcast
      (create_task ⟨[], []⟩ true ⟨⟨[⟨1, [], [], false, 0⟩], 2, 3⟩, [5], []⟩).2.2
  ∧ update_task 1 ⟨none, none, some true⟩ false ⟨⟨[⟨1, [], [], false, 0⟩], 2, 3⟩, [5], []⟩
      = (.error .commitFailure, ⟨⟨[⟨1, [], [], false, 0⟩], 2, 3⟩, [5], []⟩, [.commit false]) := by
  have h := C1_commit_happens_before_broadcast ⟨[], []⟩ [] [] 1 1 ⟨none, none, some true⟩
      ⟨⟨[⟨1, [], [], false, 0⟩], 2, 3⟩, [5], []⟩ ⟨1, [], [], false, 0⟩ ⟨1, [], [], false, 0⟩
      (by decide) (by decide)
  exact ⟨h.1 true, h.2.2.2.2.2.2.1⟩

theorem getTask_after_replace (l : List TaskModel) (tid : Nat) (task t' : TaskModel)
    (h : l.find? (fun t => t.id == tid) = some task) (hid : (t'.id == tid) = true) :
    (l.map (fun x => if x.id == tid then t' else x)).find? (fun t => t.id == tid)
      = some t' := by
  induction l with
  | nil => simp at h
  | cons a rest ih =>
    by_cases ha : (a.id == tid) = true
    · simp only [List.map_cons, if_pos ha]
      exact List.find?_cons_of_pos _ hid
    · rw [List.find?_cons_of_neg _ (by simpa using ha)] at h
      simp only [List.map_cons, if_neg ha]
      rw [List.find?_cons_of_neg _ (by simpa using ha)]
      exact ih h

/-- C7: a partial update on an existing id returns and persists exactly
`applyUpdate upd task`: each supplied field takes the supplied value,
each omitted field keeps its previous value, and `id` and `created_at`
are always preserved. -/
theorem C7_partial_update_frame (tid : Nat) (upd : TaskUpdate) (st : AppState)
    (task : TaskModel) (h : st.store.getTask tid = some task) :
    (update_task tid upd true st).1 = .ok (applyUpdate upd task)
  ∧ (update_task tid upd true st).2.1.store.getTask tid = some (applyUpdate upd task)
  ∧ (upd.title = none → (applyUpdate upd task).title = task.title)
  ∧ (upd.description = none → (applyUpdate upd task).description = task.description)
  ∧ (upd.done = none → (applyUpdate upd task).done = task.done)
  ∧ (∀ v, upd.title = some v → (applyUpdate upd task).title = v)
  ∧ (∀ v, upd.description = some v → (applyUpdate upd task).description = v)
  ∧ (∀ b, upd.done = some b → (applyUpdate upd task).done = b)
  ∧ (applyUpdate upd task).id = task.id
  ∧ (applyUpdate upd task).created_at = task.created_at := by
  have hid : ((applyUpdate upd task).id == tid) = true := by
    have h2 : st.store.tasks.find? (fun t => t.id == tid) = some task := h
    have h1 := List.find?_some h2
    simpa [applyUpdate] using h1
  refine ⟨?_, ?_, ?_, ?_, ?_, ?_, ?_, ?_, rfl, rfl⟩
  · simp [update_task, h]
  · simp only [update_task, h]
    exact getTask_after_replace st.store.tasks tid task (applyUpdate upd task) h hid
  · intro h'; simp [applyUpdate, h']
  · intro h'; simp [applyUpdate, h']
  · intro h'; simp [applyUpdate, h']
  · intro v h'; simp [applyUpdate, h']
  · intro v h'; simp [applyUpdate, h']
  · intro b h'; simp [applyUpdate, h']

theorem C7_partial_update_frame_witness :
    (update_task 1 ⟨none, none, some true⟩ true
        ⟨⟨[⟨1, ['a'], ['b'], false, 9⟩], 2, 10⟩, [], []⟩).1
      = .ok (applyUpdate ⟨none, none, some true⟩ ⟨1, ['a'], ['b'], false, 9⟩)
  ∧ (applyUpdate ⟨none, none, some true⟩ ⟨1, ['a'], ['b'], false, 9⟩).title
      = (⟨1, ['a'], ['b'], false, 9⟩ : TaskModel).title := by
  have h := C7_partial_update_frame 1 ⟨none, none, some true⟩
      ⟨⟨[⟨1, ['a'], ['b'], false, 9⟩], 2, 10⟩, [], []⟩ ⟨1, ['a'], ['b'], false, 9⟩ (by decide)
  exact ⟨h.1, h.2.2.1 rfl⟩

/-- C8: every successful mutation and every successful read appends to
the delivery log exactly one message per registered connection — not
only for the requester — and that message has exactly the shape
`{type: "log", action: <kind>, task: <payload>}` with the kind of the
triggering operation (`created`, `updated`, `deleted`, `get_task`,
`"get tasks"`). -/
theorem C8_broadcast_shape_and_fanout
    (tc : TaskCreate) (gid uid did : Nat) (upd : TaskUpdate) (st : AppState)
    (gtask utask dtask : TaskModel)
    (hg : st.store.getTask gid = some gtask)
    (hu : st.store.getTask uid = some utask)
    (hd : st.store.getTask did = some dtask) :
    (create_task tc true st).2.1.log
        = st.log ++ st.conns.map (fun c =>
            (c, { type := "log", action := "created",
                  task := Payload.taskInfo tc.title tc.description st.store.nextId false }))
  ∧ (update_task uid upd true st).2.1.log
        = st.log ++ st.conns.map (fun c =>
            (c, { type := "log", action := "updated",
                  task := Payload.taskInfo (applyUpdate upd utask).title
                            (applyUpdate upd utask).description
                            (applyUpdate upd utask).id (applyUpdate upd utask).done }))
  ∧ (delete_task did true st).2.1.log
        = st.log ++ st.conns.map (fun c =>
            (c, { type := "log", action := "deleted",
                  task := Payload.deleteInfo dtask.id dtask.title }))
  ∧ (get_task gid st).2.1.log
        = st.log ++ st.conns.map (fun c =>
            (c, { type := "log", action := "get_task",
                  task := Payload.taskInfo gtask.title gtask.description gtask.id gtask.done }))
  ∧ (get_tasks st).2.1.log
        = st.log ++ st.conns.map (fun c =>
            (c, { type := "log", action := "get tasks",
                  task := Payload.taskList ((st.store.tasks.mergeSort
                        (fun a b => decide (b.created_at ≤ a.created_at))).map
                          (fun t => (t.title, t.description, t.id, t.done))) }))
  ∧ (∀ c ∈ st.conns,
      (c, { type := "log", action := "created",
            task := Payload.taskInfo tc.title tc.description st.store.nextId false })
        ∈ (create_task tc true st).2.1.log) := by
  refine ⟨rfl, ?_, ?_, ?_, rfl, ?_⟩
  · simp [update_task, hu, broadcastAll, mkMessage]
  · simp [delete_task, hd, broadcastAll, mkMessage]
  · simp [get_task, hg, broadcastAll, mkMessage]
  · intro c hc
    show (c, _) ∈ st.log ++ st.conns.map _
    refine List.mem_append_right _ ?_
    exact List.mem_map_of_mem _ hc

theorem C8_broadcast_shape_and_fanout_witness :
    (create_task ⟨['x'], []⟩ true ⟨⟨[⟨1, [], [], false, 0⟩], 2, 3⟩, [5, 6], []⟩).2.1.log
      = [] ++ [5, 6].map (fun c =>
          (c, { type := "log", action := "created",
                task := Payload.taskInfo ['x'] [] 2 false })) := by
  have h := C8_broadcast_shape_and_fanout ⟨['x'], []⟩ 1 1 1 ⟨none, none, none⟩
      ⟨⟨[⟨1, [], [], false, 0⟩], 2, 3⟩, [5, 6], []⟩
      ⟨1, [], [], false, 0⟩ ⟨1, [], [], false, 0⟩ ⟨1, [], [], false, 0⟩
      (by decide) (by decide) (by decide)
  exact h.1

theorem take_50_100 (l : Str) : (l.take 50).take 100 = l.take 50 := by
  rw [List.take_take]
  norm_num

theorem take_150_500 (l : Str) : (l.take 150).take 500 = l.take 150 := by
  rw [List.take_take]
  norm_num

theorem runIngestionCycle_spec (posts : List (Str × Str)) :
    ∀ st : AppState,
      runIngestionCycle posts st
        = { store := { tasks := st.store.tasks
                          ++ ingestedTasks st.store.nextId st.store.clock posts,
                       nextId := st.store.nextId + posts.length,
                       clock := st.store.clock + posts.length },
            conns := st.conns,
            log := st.log ++ ingestedLog st.conns st.store.nextId posts } := by
  induction posts with
  | nil =>
    intro st
    simp [runIngestionCycle, ingestedTasks, ingestedLog]
  | cons p rest ih =>
    intro st
    have hstep :
        runIngestionCycle (p :: rest) st
          = runIngestionCycle rest
              ((add_external_task (p.1.take 50) (p.2.take 150) true st).2.1) := rfl
    rw [hstep, ih]
    simp [add_external_task, broadcastAll, ingestedTasks, ingestedLog, ingestedMsg,
      mkMessage, take_50_100, take_150_500]
    omega

theorem ingestedTasks_length (posts : List (Str × Str)) :
    ∀ nid ck : Nat, (ingestedTasks nid ck posts).length = posts.length := by
  induction posts with
  | nil => intro nid ck; rfl
  | cons p rest ih => intro nid ck; simp [ingestedTasks, ih]

theorem ingestedTasks_truncated (posts : List (Str × Str)) :
    ∀ nid ck : Nat, ∀ t ∈ ingestedTasks nid ck posts,
      t.title.length ≤ 50 ∧ t.description.length ≤ 150 := by
  induction posts with
  | nil => intro nid ck t ht; simp [ingestedTasks] at ht
  | cons p rest ih =>
    intro nid ck t ht
    rcases List.mem_cons.mp ht with ht | ht
    · subst ht
      constructor <;> simp [List.length_take]
    · exact ih (nid + 1) (ck + 1) t ht

theorem ingestedLog_created (posts : List (Str × Str)) :
    ∀ (conns : List Nat) (nid : Nat), ∀ pr ∈ ingestedLog conns nid posts,
      pr.2.type = "log" ∧ pr.2.action = "created" := by
  induction posts with
  | nil => intro conns nid pr hpr; simp [ingestedLog] at hpr
  | cons p rest ih =>
    intro conns nid pr hpr
    rcases List.mem_append.mp hpr with hpr | hpr
    · rcases List.mem_map.mp hpr with ⟨c, _, hc⟩
      rw [← hc]
      exact ⟨rfl, rfl⟩
    · exact ih conns (nid + 1) pr hpr

/-- C6: an ingestion cycle over N fetched records appends exactly N new
rows — the k-th holding the k-th record's title truncated to 50
characters and body truncated to 150 (the bounds applied by
`periodic_task` before the 100/500 cuts of `add_external_task`) — and
appends, per record, one `created` message to every registered
connection. -/
theorem C6_ingestion_cycle (posts : List (Str × Str)) (st : AppState) :
    (runIngestionCycle posts st).store.tasks
        = st.store.tasks ++ ingestedTasks st.store.nextId st.store.clock posts
  ∧ (ingestedTasks st.store.nextId st.store.clock posts).length = posts.length
  ∧ (runIngestionCycle posts st).log
        = st.log ++ ingestedLog st.conns st.store.nextId posts
  ∧ (∀ t ∈ ingestedTasks st.store.nextId st.store.clock posts,
        t.title.length ≤ 50 ∧ t.description.length ≤ 150)
  ∧ (∀ pr ∈ ingestedLog st.conns st.store.nextId posts,
        pr.2.type = "log" ∧ pr.2.action = "created") := by
  refine ⟨?_, ingestedTasks_length posts _ _, ?_,
    ingestedTasks_truncated posts _ _, ingestedLog_created posts _ _⟩
  · rw [runIngestionCycle_spec posts st]
  · rw [runIngestionCycle_spec posts st]

theorem regExec_active_bstep (s : RegState) (j : Nat) :
    (regExec s (.bstep j)).active = s.active := by
  simp only [regExec]
  split
  · rfl
  · split <;> rfl

theorem regExec_bstep_delivered (s : RegState) (j : Nat) (c e : Nat)
    (hc : c ∉ s.active) (h : (c, e) ∈ (regExec s (.bstep j)).delivered) :
    (c, e) ∈ s.delivered := by
  simp only [regExec] at h
  split at h
  · exact h
  · split at h
    · exact h
    next i c' hc' =>
      rcases List.mem_append.mp h with h | h
      · exact h
      · exfalso
        apply hc
        have hce : (c, e) = (c', _) := List.mem_singleton.mp h
        rw [show c = c' from congrArg Prod.fst hce]
        exact List.getElem?_mem hc'

theorem regRun_safety (ops : List RegOp) :
    ∀ (s : RegState) (c : Nat), c ∉ s.active →
      (∀ op ∈ ops, op ≠ RegOp.register c) →
      ((regRun s ops).active = activeOf s.active ops
        ∧ ∀ e : Nat, (c, e) ∈ (regRun s ops).delivered → (c, e) ∈ s.delivered) := by
  induction ops with
  | nil => exact fun s c hc _ => ⟨rfl, fun e he => he⟩
  | cons op rest ih =>
    intro s c hc hops
    have hrest : ∀ o ∈ rest, o ≠ RegOp.register c := fun o ho => hops o (by simp [ho])
    cases op with
    | register d =>
      have hd : d ≠ c := by
        intro hdc
        exact hops (RegOp.register d) (by simp) (by rw [hdc])
      have hc' : c ∉ (regExec s (.register d)).active := by
        simp only [regExec, List.mem_append, List.mem_singleton]
        rintro (h | h)
        · exact hc h
        · exact hd h.symm
      have h' := ih (regExec s (.register d)) c hc' hrest
      exact ⟨h'.1, fun e he => h'.2 e he⟩
    | disconnect d =>
      have hc' : c ∉ (regExec s (.disconnect d)).active := by
        intro h
        exact hc (List.mem_of_mem_erase h)
      have h' := ih (regExec s (.disconnect d)) c hc' hrest
      exact ⟨h'.1, fun e he => h'.2 e he⟩
    | bstart e0 =>
      have h' := ih (regExec s (.bstart e0)) c hc hrest
      exact ⟨h'.1, fun e he => h'.2 e he⟩
    | bstep j =>
      have hact : (regExec s (.bstep j)).active = s.active := regExec_active_bstep s j
      have h' := ih (regExec s (.bstep j)) c (by rw [hact]; exact hc) hrest
      refine ⟨?_, ?_⟩
      · have h1 : activeOf s.active (RegOp.bstep j :: rest)
            = activeOf (regExec s (.bstep j)).active rest := by
          rw [hact]
          rfl
        rw [h1]
        exact h'.1
      · intro e he
        exact regExec_bstep_delivered s j c e hc (h'.2 e he)

/-- C9: under the app's cooperative single-event-loop scheduling (each
step between `await` points atomic), for every interleaving of
register, disconnect and in-flight broadcast steps: the active list is
exactly what the register/disconnect history alone determines — no
broadcast step ever corrupts it — and once a handle is out of the
active list and never re-registered, no broadcast step ever delivers
to it again. -/
theorem C9_registry_interleaving_safety (s : RegState) (ops : List RegOp) (c : Nat)
    (hc : c ∉ s.active) (hops : ∀ op ∈ ops, op ≠ RegOp.register c) :
    (regRun s ops).active = activeOf s.active ops
  ∧ ∀ e : Nat, (c, e) ∈ (regRun s ops).delivered → (c, e) ∈ s.delivered :=
  regRun_safety ops s c hc hops

theorem C9_registry_interleaving_safety_witness :
    ((regRun ⟨[1, 2], [], []⟩
        [.bstart 7, .bstep 0, .disconnect 1, .bstep 0, .bstep 0]).active
      = activeOf [1, 2] [.bstart 7, .bstep 0, .disconnect 1, .bstep 0, .bstep 0])
  ∧ ((3, 7) ∈ (regRun ⟨[1, 2], [], []⟩
        [.bstart 7, .bstep 0, .disconnect 1, .bstep 0, .bstep 0]).delivered
      → (3, 7) ∈ ([] : List (Nat × Nat))) := by
  have h := C9_registry_interleaving_safety ⟨[1, 2], [], []⟩
      [.bstart 7, .bstep 0, .disconnect 1, .bstep 0, .bstep 0] 3 (by decide) (by decide)
  exact ⟨h.1, h.2 7⟩
